import Mathlib

/-!
Verification of the conversation/session model of the chatbot repository.

Part A embeds the React client (src/frontend/src/components/Chat.js and
src/frontend/src/App.js) shallowly: the component state becomes an explicit
state record, each handler becomes a state-transformer, and the asynchronous
request cycle becomes a labelled step relation.

Part B models the Conversation Session Manager (the backend operations
`sendMessage`, `listConversations`, `getConversation`, `deleteConversation`);
its code is not part of the given sources, so those definitions are modelled
from the specification text and marked as such.
-/

/- ===================== Part A: the React client ===================== -/

/-- A message object as built by Chat.js: `{ id, role, content, timestamp }`,
with the optional `isError` flag that only the synthetic error message sets.
Timestamps (`Date.now()` / ISO strings) are modelled as naturals. -/
structure ClientMsg where
  id : Nat
  role : String
  content : String
  timestamp : Nat
  isError : Bool := false
deriving DecidableEq, Repr

/-- The Chat component state relevant to the send flow:
`messages`, `input`, `loading`, `conversationId` (Chat.js lines 7-10). -/
structure ClientState where
  messages : List ClientMsg
  input : String
  loading : Bool
  conversationId : Option String
deriving DecidableEq, Repr

/-- Outcome of the `/api/chat/send` request as the client observes it:
either the response body `{ response, conversation_id }` or a thrown error. -/
inductive SendOutcome where
  | success (response : String) (conversation_id : String)
  | failure
deriving DecidableEq, Repr

/-- The fixed text of the synthetic assistant message appended in the
catch branch of `sendMessage` (Chat.js line 95). -/
def errorText : String := "Sorry, I encountered an error. Please try again."

/-- JavaScript `String.prototype.trim`: strip leading and trailing
whitespace, written over the character list so it evaluates by kernel
reduction. -/
def jsTrim (s : String) : String :=
  String.mk
    (((s.data.dropWhile Char.isWhitespace).reverse.dropWhile
        Char.isWhitespace).reverse)

/-- Guard at the top of `sendMessage` (Chat.js line 50):
`if (!input.trim() || loading) return;` — the handler proceeds only when
the trimmed input is non-empty and no send is loading. -/
def sendGuard (st : ClientState) : Bool :=
  jsTrim st.input != "" && !st.loading

/-- The synchronous prefix of `sendMessage` before the await (Chat.js
lines 52-63): capture `userMessage = input.trim()`, clear the input, set
`loading`, and optimistically append the user message
(`id: Date.now()`, `role: 'user'`). -/
def beginSend (st : ClientState) (now : Nat) : ClientState :=
  let userMessage := jsTrim st.input
  { st with
    input := ""
    loading := true
    messages := st.messages ++ [⟨now, "user", userMessage, now, false⟩] }

/-- The continuation of `sendMessage` after the request settles (Chat.js
lines 65-102): on success adopt the returned conversation id when none was
set and append the assistant message (`id: Date.now() + 1`); on failure
append the fixed error message with `isError: true`; either way `finally`
clears `loading`. -/
def completeSend (st : ClientState) (now : Nat) (outcome : SendOutcome) : ClientState :=
  match outcome with
  | .success resp newConvId =>
      let st1 :=
        if st.conversationId.isNone then { st with conversationId := some newConvId } else st
      { st1 with
        messages := st1.messages ++ [⟨now + 1, "assistant", resp, now, false⟩]
        loading := false }
  | .failure =>
      { st with
        messages := st.messages ++ [⟨now + 1, "assistant", errorText, now, true⟩]
        loading := false }

/-- The whole `sendMessage` handler with the request cycle collapsed into
one step. Returns the new state and whether a network request was issued. -/
def sendMessage (st : ClientState) (now : Nat) (outcome : SendOutcome) :
    ClientState × Bool :=
  if sendGuard st then (completeSend (beginSend st now) now outcome, true)
  else (st, false)

/-- `disabled={loading}` on the chat input (Chat.js line 277). -/
def chatInputDisabled (st : ClientState) : Bool := st.loading

/-- `disabled={loading || !input.trim()}` on the send button (Chat.js
line 283). -/
def sendButtonDisabled (st : ClientState) : Bool :=
  st.loading || jsTrim st.input == ""

/-- The client together with the number of outstanding `/api/chat/send`
requests, to state the single-request-in-flight property. -/
structure AsyncClient where
  st : ClientState
  inflight : Nat
deriving DecidableEq, Repr

/-- The initial Chat component state (Chat.js lines 7-10). -/
def initClient : AsyncClient :=
  ⟨⟨[], "", false, none⟩, 0⟩

/-- Events of the client's send cycle: a form submit (which issues a request
only when the guard passes), editing the input (possible only while the
field is enabled), and a response arriving for an outstanding request. -/
inductive ClientStep : AsyncClient → AsyncClient → Prop where
  | submit (s : AsyncClient) (now : Nat) (h : sendGuard s.st = true) :
      ClientStep s ⟨beginSend s.st now, s.inflight + 1⟩
  | submitBlocked (s : AsyncClient) (h : sendGuard s.st = false) :
      ClientStep s s
  | typeInput (s : AsyncClient) (t : String) (h : chatInputDisabled s.st = false) :
      ClientStep s ⟨{ s.st with input := t }, s.inflight⟩
  | respond (s : AsyncClient) (now : Nat) (outcome : SendOutcome) (h : 0 < s.inflight) :
      ClientStep s ⟨completeSend s.st now outcome, s.inflight - 1⟩

/-- Reachable client states: reflexive-transitive closure of the step
relation from the initial component state. -/
def ClientReachable (s : AsyncClient) : Prop :=
  Relation.ReflTransGen ClientStep initClient s

/-- The number of outstanding send requests always matches the `loading`
flag: one while loading, zero otherwise. -/
def inflightInv (s : AsyncClient) : Prop :=
  s.inflight = if s.st.loading then 1 else 0

/- ===================== App.js routing ===================== -/

/-- A rendered element of the route tree in App.js: one of the three page
components or a `<Navigate to=.../>` redirect. -/
inductive RouteElement where
  | chat
  | login
  | register
  | navigate (dest : String)
deriving DecidableEq, Repr

/-- `ProtectedRoute` (App.js lines 26-29): renders its children when an auth
token is present, else `<Navigate to="/login" replace />`. -/
def ProtectedRoute (token : Option String) (children : RouteElement) : RouteElement :=
  match token with
  | some _ => children
  | none => .navigate "/login"

/-- The route table of App.js (lines 14-19): `/login`, `/register`,
`/chat` wrapped in `ProtectedRoute`, and `/` redirecting to `/chat`. -/
def appRoute (path : String) (token : Option String) : Option RouteElement :=
  if path == "/login" then some .login
  else if path == "/register" then some .register
  else if path == "/chat" then some (ProtectedRoute token .chat)
  else if path == "/" then some (.navigate "/chat")
  else none

/- ============= Part B: the Conversation Session Manager ============= -/

/- The Session Manager's own code (the backend behind `/api/chat/...`) is not
among the given sources; only its React caller is. The definitions in this
part are therefore modelled from the specification (spec.md sections 3, 4.1
and 7) and say so in their doc comments. -/

/-- Modelled from the spec: the `role` enumeration of a Message (spec §3). -/
inductive Role where
  | user
  | assistant
deriving DecidableEq, Repr

/-- Modelled from the spec: a Message — role, bounded text content and a
timestamp (spec §3); timestamps are modelled as naturals. -/
structure Message where
  role : Role
  content : String
  timestamp : Nat
deriving DecidableEq, Repr

/-- Modelled from the spec: a Conversation — owner identity, ordered message
sequence, created and last-updated timestamps (spec §3). -/
structure Conversation where
  owner : String
  messages : List Message
  createdAt : Nat
  updatedAt : Nat
deriving DecidableEq, Repr

/-- Modelled from the spec: the storage adapter's view — one persisted record
per conversation id (spec §6), as an association list keyed by id. -/
def Store : Type := List (String × Conversation)

/-- Modelled from the spec: the error taxonomy of §7. -/
inductive SMError where
  | validation
  | authorization
  | notFound
  | transientStorage
  | completionUnavailable
deriving DecidableEq, Repr

/-- Modelled from the spec: which error kinds §7 marks retryable. -/
def SMError.retryable : SMError → Bool
  | .transientStorage => true
  | .completionUnavailable => true
  | _ => false

/-- Modelled from the spec: a ConversationSummary — id, preview, updated-at
timestamp and message count (spec §3). -/
structure ConversationSummary where
  conversation_id : String
  preview : String
  updated_at : Nat
  message_count : Nat
deriving DecidableEq, Repr

/-- Look a conversation id up in the store. -/
def storeGet (s : Store) (id : String) : Option Conversation :=
  match s with
  | [] => none
  | p :: rest => if p.1 == id then some p.2 else storeGet rest id

/-- Write a conversation record, replacing the record with the same id when
one exists, else adding a new record. -/
def storePut (s : Store) (id : String) (c : Conversation) : Store :=
  match s with
  | [] => [(id, c)]
  | p :: rest => if p.1 == id then (id, c) :: rest else p :: storePut rest id c

/-- Remove the record for a conversation id. -/
def storeDelete (s : Store) (id : String) : Store :=
  match s with
  | [] => []
  | p :: rest => if p.1 == id then storeDelete rest id else p :: storeDelete rest id

/-- Modelled from the spec: the length bound on message text
(spec §3, "bounded length, e.g. ≤4000 characters"). -/
def maxTextLength : Nat := 4000

/-- Modelled from the spec: the validation constraint of `sendMessage` —
`text` non-empty and length-bounded (spec §4.1). -/
def validText (text : String) : Bool :=
  text != "" && decide (text.length ≤ maxTextLength)

/-- External calls a Session Manager operation performs, in order: used to
state that validation failures happen before any network call. -/
inductive ExtCall where
  | storageRead
  | completionCall
  | storageWrite
  | storageDeleteCall
deriving DecidableEq, Repr

/-- Result of a `sendMessage` call: the outcome (conversation id and
assistant text, or an error), the store after the call, and the external
calls made. -/
structure SendResult where
  outcome : Except SMError (String × String)
  store : Store
  calls : List ExtCall

/-- Modelled from the spec: the shared tail of `sendMessage` (spec §4.1) —
append the user Message in memory, invoke the completion client on the full
history; on success append the assistant Message and persist the updated
Conversation; on completion-client failure persist nothing and surface a
retryable `completionUnavailable` error. -/
def finishSend (store : Store) (cid : String) (conv : Conversation)
    (text : String) (now : Nat) (completion : List Message → Option String)
    (calls : List ExtCall) : SendResult :=
  let hist := conv.messages ++ [⟨Role.user, text, now⟩]
  match completion hist with
  | none => ⟨.error .completionUnavailable, store, calls ++ [.completionCall]⟩
  | some reply =>
      let conv' : Conversation :=
        { conv with messages := hist ++ [⟨Role.assistant, reply, now⟩], updatedAt := now }
      ⟨.ok (cid, reply), storePut store cid conv',
        calls ++ [.completionCall, .storageWrite]⟩

/-- Modelled from the spec: `sendMessage(ownerId, conversationId?, text)`
(spec §4.1). Validation is checked first and rejects with no external call;
with no conversationId a fresh id (`newId`) and an empty Conversation owned
by `ownerId` are minted; otherwise the stored Conversation is read and the
owner checked, rejecting with `authorization` on mismatch; the completion
client and persistence behave as in `finishSend`. -/
def sendMessageSM (store : Store) (ownerId : String) (convId : Option String)
    (text : String) (newId : String) (now : Nat)
    (completion : List Message → Option String) : SendResult :=
  if validText text then
    match convId with
    | none =>
        finishSend store newId ⟨ownerId, [], now, now⟩ text now completion []
    | some cid =>
        match storeGet store cid with
        | none => ⟨.error .notFound, store, [.storageRead]⟩
        | some conv =>
            if conv.owner == ownerId then
              finishSend store cid conv text now completion [.storageRead]
            else ⟨.error .authorization, store, [.storageRead]⟩
  else ⟨.error .validation, store, []⟩

/-- Modelled from the spec: the preview of a ConversationSummary, computed
from the last message of the Conversation (spec §4.1); the truncation bound
is not fixed by the spec, so the text is kept whole. -/
def summaryPreview (c : Conversation) : String :=
  match c.messages.getLast? with
  | none => ""
  | some m => m.content

/-- Modelled from the spec: the summary projection of one stored record. -/
def summarize (id : String) (c : Conversation) : ConversationSummary :=
  ⟨id, summaryPreview c, c.updatedAt, c.messages.length⟩

/-- Most-recently-updated-first order on summaries. -/
def moreRecent (a b : ConversationSummary) : Prop :=
  b.updated_at ≤ a.updated_at

instance : DecidableRel moreRecent :=
  fun a b => inferInstanceAs (Decidable (b.updated_at ≤ a.updated_at))

instance : IsTotal ConversationSummary moreRecent :=
  ⟨fun a b => Nat.le_total b.updated_at a.updated_at⟩

instance : IsTrans ConversationSummary moreRecent :=
  ⟨fun _ _ _ hab hbc => Nat.le_trans hbc hab⟩

/-- Modelled from the spec: `listConversations(ownerId)` — the caller's
conversations projected to summaries, ordered most-recently-updated first
(spec §4.1). -/
def listConversationsSM (store : Store) (ownerId : String) :
    List ConversationSummary :=
  let owned := store.filter (fun p => p.2.owner == ownerId)
  List.insertionSort moreRecent (owned.map (fun p => summarize p.1 p.2))

/-- Modelled from the spec: `getConversation(ownerId, conversationId)` —
the full message list, or a not-found error when the record is absent or
not owned by `ownerId` (spec §4.1). -/
def getConversationSM (store : Store) (ownerId cid : String) :
    Except SMError (List Message) :=
  match storeGet store cid with
  | none => .error .notFound
  | some conv =>
      if conv.owner == ownerId then .ok conv.messages else .error .notFound

/-- Modelled from the spec: `deleteConversation(ownerId, conversationId)` —
removes the persisted record; a missing or foreign record is reported
not-found (spec §4.1 leaves the idempotency choice open, §9). -/
def deleteConversationSM (store : Store) (ownerId cid : String) :
    Except SMError Unit × Store :=
  match storeGet store cid with
  | none => (.error .notFound, store)
  | some conv =>
      if conv.owner == ownerId then (.ok (), storeDelete store cid)
      else (.error .notFound, store)

/- ===================== Store lemmas ===================== -/

theorem storeGet_storePut_self (s : Store) (id : String) (c : Conversation) :
    storeGet (storePut s id c) id = some c := by
  induction s with
  | nil => simp [storePut, storeGet]
  | cons p rest ih =>
      by_cases h : p.1 == id
      · simp [storePut, storeGet, h]
      · simp only [storePut, storeGet, h, Bool.false_eq_true, if_false]
        exact ih

theorem storeGet_storePut_ne (s : Store) (id id' : String) (c : Conversation)
    (h : id' ≠ id) : storeGet (storePut s id c) id' = storeGet s id' := by
  induction s with
  | nil =>
      simp only [storePut, storeGet]
      rw [if_neg]
      simp [Ne.symm h]
  | cons p rest ih =>
      by_cases hp : p.1 == id
      · have hpid : p.1 = id := by simpa using hp
        simp only [storePut, hp, if_true, storeGet]
        rw [if_neg, if_neg]
        · simp [hpid, Ne.symm h]
        · simp [Ne.symm h]
      · simp only [storePut, hp, Bool.false_eq_true, if_false, storeGet]
        by_cases hq : p.1 == id'
        · simp [hq]
        · simp [hq, ih]

theorem length_storePut_of_get_none (s : Store) (id : String) (c : Conversation)
    (h : storeGet s id = none) :
    (storePut s id c).length = s.length + 1 := by
  induction s with
  | nil => simp [storePut]
  | cons p rest ih =>
      by_cases hp : p.1 == id
      · simp [storeGet, hp] at h
      · simp only [storeGet, hp, Bool.false_eq_true, if_false] at h
        simp [storePut, hp, ih h]

theorem storeGet_storeDelete_self (s : Store) (id : String) :
    storeGet (storeDelete s id) id = none := by
  induction s with
  | nil => simp [storeDelete, storeGet]
  | cons p rest ih =>
      by_cases hp : p.1 == id
      · simpa [storeDelete, hp] using ih
      · simpa [storeDelete, storeGet, hp] using ih

/- ===================== Helper lemmas ===================== -/

theorem finishSend_completion_none (store : Store) (cid : String)
    (conv : Conversation) (text : String) (now : Nat) (calls : List ExtCall) :
    finishSend store cid conv text now (fun _ => none) calls =
      ⟨.error .completionUnavailable, store, calls ++ [.completionCall]⟩ := by
  simp [finishSend]

theorem finishSend_completion_some (store : Store) (cid : String)
    (conv : Conversation) (text : String) (now : Nat) (reply : String)
    (calls : List ExtCall) :
    finishSend store cid conv text now (fun _ => some reply) calls =
      ⟨.ok (cid, reply),
        storePut store cid
          { conv with
            messages := (conv.messages ++ [⟨Role.user, text, now⟩]) ++
              [⟨Role.assistant, reply, now⟩]
            updatedAt := now },
        calls ++ [.completionCall, .storageWrite]⟩ := by
  simp [finishSend]

theorem completeSend_loading (st : ClientState) (now : Nat) (o : SendOutcome) :
    (completeSend st now o).loading = false := by
  cases o <;> rfl

theorem beginSend_loading (st : ClientState) (now : Nat) :
    (beginSend st now).loading = true := rfl

theorem inflightInv_init : inflightInv initClient := by
  simp [inflightInv, initClient]

theorem inflightInv_step {s s' : AsyncClient} (h : ClientStep s s')
    (hi : inflightInv s) : inflightInv s' := by
  cases h with
  | submit now hg =>
      have hl : s.st.loading = false := by
        simp [sendGuard] at hg
        exact hg.2
      simp only [inflightInv, hl, if_false] at hi
      simp [inflightInv, beginSend_loading, hi]
  | submitBlocked hg => exact hi
  | typeInput t hd =>
      simpa [inflightInv] using hi
  | respond now outcome h0 =>
      have hl : s.st.loading = true := by
        by_contra hc
        simp only [Bool.not_eq_true] at hc
        simp [inflightInv, hc] at hi
        omega
      simp only [inflightInv, hl, if_true] at hi
      simp [inflightInv, completeSend_loading, hi]

theorem reachable_inflightInv {s : AsyncClient} (h : ClientReachable s) :
    inflightInv s := by
  induction h with
  | refl => exact inflightInv_init
  | tail hab hbc ih => exact inflightInv_step hbc ih

/- ===================== Claim theorems ===================== -/

/-- C10: the `/chat` route is only rendered for a caller holding a token —
`ProtectedRoute` with no token yields the `/login` redirect (so the Chat
component is never mounted), and `appRoute "/chat"` yields the Chat element
only when a token is present. -/
theorem protectedRoute_requires_token :
    (∀ children, ProtectedRoute none children = RouteElement.navigate "/login") ∧
    appRoute "/chat" none = some (RouteElement.navigate "/login") ∧
    (∀ token : Option String,
      appRoute "/chat" token = some RouteElement.chat → token.isSome = true) := by
  refine ⟨fun children => rfl, by decide, ?_⟩
  intro token h
  cases token with
  | none => simp [appRoute, ProtectedRoute] at h
  | some t => rfl

theorem protectedRoute_requires_token_witness :
    ProtectedRoute none RouteElement.chat = RouteElement.navigate "/login" ∧
    (some "tok" : Option String).isSome = true :=
  ⟨protectedRoute_requires_token.1 RouteElement.chat,
   protectedRoute_requires_token.2.2 (some "tok") (by decide)⟩

/-- C9: on a send failure the displayed message list grows by exactly two
entries — the optimistically appended user message stays, and a synthetic
assistant message with the fixed error text and the `isError` flag is
appended. -/
theorem chatClient_failure_appends_error_message :
    ∀ (st : ClientState) (now : Nat), sendGuard st = true →
      (sendMessage st now .failure).1.messages =
        st.messages ++
          [⟨now, "user", jsTrim st.input, now, false⟩,
           ⟨now + 1, "assistant", errorText, now, true⟩] ∧
      (sendMessage st now .failure).1.messages.length =
        st.messages.length + 2 := by
  intro st now h
  constructor
  · simp [sendMessage, h, beginSend, completeSend]
  · simp [sendMessage, h, beginSend, completeSend]

theorem chatClient_failure_appends_error_message_witness :
    (sendMessage ⟨[], "hi", false, none⟩ 7 .failure).1.messages =
      [⟨7, "user", "hi", 7, false⟩,
       ⟨8, "assistant", errorText, 7, true⟩] ∧
    (sendMessage ⟨[], "hi", false, none⟩ 7 .failure).1.messages.length = 2 := by
  have h := chatClient_failure_appends_error_message ⟨[], "hi", false, none⟩ 7
    (by decide)
  refine ⟨?_, h.2⟩
  rw [h.1]
  decide

/-- C2: a `sendMessage` call whose text is empty or longer than the bound
(4000) is rejected with a validation error, the store is untouched, and no
external call (completion client or storage adapter) is made. -/
theorem sendMessageSM_invalid_text_rejected :
    ∀ (store : Store) (ownerId : String) (convId : Option String)
      (text newId : String) (now : Nat)
      (completion : List Message → Option String),
      (text = "" ∨ maxTextLength < text.length) →
      sendMessageSM store ownerId convId text newId now completion =
        ⟨.error .validation, store, []⟩ := by
  intro store ownerId convId text newId now completion h
  have hv : validText text = false := by
    rcases h with h | h
    · simp [validText, h]
    · simp [validText, Nat.not_le.mpr h]
  simp [sendMessageSM, hv]

theorem sendMessageSM_invalid_text_rejected_witness :
    sendMessageSM [] "owner1" none (String.mk (List.replicate 4001 'a')) "c1" 0
        (fun _ => some "reply") =
      ⟨.error .validation, [], []⟩ :=
  sendMessageSM_invalid_text_rejected [] "owner1" none
    (String.mk (List.replicate 4001 'a')) "c1" 0 (fun _ => some "reply")
    (Or.inr (by
      show 4000 < (List.replicate 4001 'a').length
      rw [List.length_replicate]
      norm_num))

/-- C5: a `sendMessage` call naming a conversation whose stored owner
differs from the caller fails with an authorization error and leaves the
store (so the target conversation) unmodified. -/
theorem sendMessageSM_wrong_owner_rejected :
    ∀ (store : Store) (ownerId cid text newId : String) (now : Nat)
      (completion : List Message → Option String) (conv : Conversation),
      validText text = true →
      storeGet store cid = some conv →
      conv.owner ≠ ownerId →
      sendMessageSM store ownerId (some cid) text newId now completion =
        ⟨.error .authorization, store, [.storageRead]⟩ := by
  intro store ownerId cid text newId now completion conv hv hg ho
  simp [sendMessageSM, hv, hg, ho]

theorem sendMessageSM_wrong_owner_rejected_witness :
    sendMessageSM [("c1", ⟨"alice", [], 0, 0⟩)] "bob" (some "c1") "hi" "n" 1
        (fun _ => some "yo") =
      ⟨.error .authorization, [("c1", ⟨"alice", [], 0, 0⟩)], [.storageRead]⟩ :=
  sendMessageSM_wrong_owner_rejected [("c1", ⟨"alice", [], 0, 0⟩)] "bob" "c1"
    "hi" "n" 1 (fun _ => some "yo") ⟨"alice", [], 0, 0⟩
    (by decide) (by decide) (by decide)

/-- C7: a successful `deleteConversation` followed by `getConversation` on
the same id by the same owner yields the not-found error: the record is
removed and no longer retrievable. -/
theorem deleteConversationSM_then_get_notFound :
    ∀ (store : Store) (ownerId cid : String),
      (deleteConversationSM store ownerId cid).1 = .ok () →
      getConversationSM (deleteConversationSM store ownerId cid).2 ownerId cid =
        .error .notFound := by
  intro store ownerId cid h
  cases hg : storeGet store cid with
  | none => simp [deleteConversationSM, hg] at h
  | some conv =>
      by_cases ho : conv.owner == ownerId
      · simp [deleteConversationSM, hg, ho, getConversationSM,
          storeGet_storeDelete_self]
      · simp [deleteConversationSM, hg, ho] at h

theorem deleteConversationSM_then_get_notFound_witness :
    getConversationSM
        (deleteConversationSM [("c1", ⟨"alice", [], 0, 0⟩)] "alice" "c1").2
        "alice" "c1" =
      .error .notFound :=
  deleteConversationSM_then_get_notFound [("c1", ⟨"alice", [], 0, 0⟩)] "alice"
    "c1" rfl

/-- C1: when the completion client fails, `sendMessage` leaves the persisted
store exactly as before (no user message, no assistant message persisted —
no storage write at all) and, whenever the call got past validation and
ownership, surfaces the retryable `completionUnavailable` error. -/
theorem sendMessageSM_completion_failure_rolls_back :
    ∀ (store : Store) (ownerId : String) (convId : Option String)
      (text newId : String) (now : Nat),
      (sendMessageSM store ownerId convId text newId now
          (fun _ => none)).store = store ∧
      ExtCall.storageWrite ∉
        (sendMessageSM store ownerId convId text newId now
          (fun _ => none)).calls ∧
      (validText text = true →
        (∀ cid, convId = some cid →
          ∃ conv, storeGet store cid = some conv ∧ conv.owner = ownerId) →
        ((sendMessageSM store ownerId convId text newId now
            (fun _ => none)).outcome = .error .completionUnavailable ∧
         SMError.retryable .completionUnavailable = true)) := by
  intro store ownerId convId text newId now
  by_cases hv : validText text
  · cases convId with
    | none =>
        simp [sendMessageSM, hv, finishSend_completion_none, SMError.retryable]
    | some cid =>
        cases hg : storeGet store cid with
        | none =>
            refine ⟨by simp [sendMessageSM, hv, hg],
              by simp [sendMessageSM, hv, hg], ?_⟩
            intro _ hown
            obtain ⟨conv, hc, _⟩ := hown cid rfl
            rw [hg] at hc
            cases hc
        | some conv =>
            by_cases ho : conv.owner == ownerId
            · simp [sendMessageSM, hv, hg, ho, finishSend_completion_none,
                SMError.retryable]
            · refine ⟨by simp [sendMessageSM, hv, hg, ho],
                by simp [sendMessageSM, hv, hg, ho], ?_⟩
              intro _ hown
              obtain ⟨conv', hc, he⟩ := hown cid rfl
              rw [hg] at hc
              injection hc with hc
              subst hc
              exact absurd he (by simpa using ho)
  · simp [sendMessageSM, hv]

theorem sendMessageSM_completion_failure_rolls_back_witness :
    (sendMessageSM [("c1", ⟨"alice", [], 0, 0⟩)] "alice" (some "c1") "hi" "n" 1
        (fun _ => none)).store = [("c1", ⟨"alice", [], 0, 0⟩)] ∧
    (sendMessageSM [("c1", ⟨"alice", [], 0, 0⟩)] "alice" (some "c1") "hi" "n" 1
        (fun _ => none)).outcome = .error .completionUnavailable := by
  have h := sendMessageSM_completion_failure_rolls_back
    [("c1", ⟨"alice", [], 0, 0⟩)] "alice" (some "c1") "hi" "n" 1
  refine ⟨h.1, (h.2.2 (by decide) ?_).1⟩
  intro cid hcid
  injection hcid with hcid
  subst hcid
  exact ⟨⟨"alice", [], 0, 0⟩, by decide, rfl⟩

/-- C3: on a fresh conversation id, `sendMessage` with no conversationId and
a succeeding completion client creates exactly one new Conversation owned by
the caller, holding exactly one user message followed by one assistant
message, returns the minted id with the reply, and touches no other
record. -/
theorem sendMessageSM_new_conversation :
    ∀ (store : Store) (ownerId text newId : String) (now : Nat)
      (reply : String),
      validText text = true →
      storeGet store newId = none →
      ((sendMessageSM store ownerId none text newId now
          (fun _ => some reply)).outcome = .ok (newId, reply) ∧
       storeGet (sendMessageSM store ownerId none text newId now
           (fun _ => some reply)).store newId =
         some ⟨ownerId, [⟨Role.user, text, now⟩, ⟨Role.assistant, reply, now⟩],
           now, now⟩ ∧
       (sendMessageSM store ownerId none text newId now
           (fun _ => some reply)).store.length = store.length + 1 ∧
       ∀ id, id ≠ newId →
         storeGet (sendMessageSM store ownerId none text newId now
             (fun _ => some reply)).store id = storeGet store id) := by
  intro store ownerId text newId now reply hv hfresh
  have hred : sendMessageSM store ownerId none text newId now
      (fun _ => some reply) =
      ⟨.ok (newId, reply),
        storePut store newId
          ⟨ownerId, [⟨Role.user, text, now⟩, ⟨Role.assistant, reply, now⟩],
            now, now⟩,
        [.completionCall, .storageWrite]⟩ := by
    simp [sendMessageSM, hv, finishSend_completion_some]
  rw [hred]
  exact ⟨rfl, storeGet_storePut_self _ _ _,
    length_storePut_of_get_none _ _ _ hfresh,
    fun id hid => storeGet_storePut_ne store newId id _ hid⟩

theorem sendMessageSM_new_conversation_witness :
    (sendMessageSM [] "alice" none "hi" "c9" 2 (fun _ => some "yo")).outcome =
      .ok ("c9", "yo") ∧
    storeGet (sendMessageSM [] "alice" none "hi" "c9" 2
        (fun _ => some "yo")).store "c9" =
      some ⟨"alice", [⟨Role.user, "hi", 2⟩, ⟨Role.assistant, "yo", 2⟩], 2, 2⟩ :=
  have h := sendMessageSM_new_conversation [] "alice" "hi" "c9" 2 "yo"
    (by decide) rfl
  ⟨h.1, h.2.1⟩

/-- C4: on an existing conversation owned by the caller, `sendMessage`
appends exactly the user message then the assistant message to the stored
sequence (count +2, previously stored messages kept unchanged as a prefix,
other records untouched) on success, and changes nothing on
completion-client failure. -/
theorem sendMessageSM_existing_appends_two :
    ∀ (store : Store) (ownerId cid text newId : String) (now : Nat)
      (conv : Conversation) (reply : String),
      validText text = true →
      storeGet store cid = some conv →
      conv.owner = ownerId →
      (((sendMessageSM store ownerId (some cid) text newId now
          (fun _ => some reply)).outcome = .ok (cid, reply) ∧
        storeGet (sendMessageSM store ownerId (some cid) text newId now
            (fun _ => some reply)).store cid =
          some { conv with
            messages := conv.messages ++
              [⟨Role.user, text, now⟩, ⟨Role.assistant, reply, now⟩]
            updatedAt := now } ∧
        (∀ id, id ≠ cid →
          storeGet (sendMessageSM store ownerId (some cid) text newId now
              (fun _ => some reply)).store id = storeGet store id)) ∧
       (sendMessageSM store ownerId (some cid) text newId now
          (fun _ => none)).store = store) := by
  intro store ownerId cid text newId now conv reply hv hg ho
  have hbeq : conv.owner == ownerId := by simp [ho]
  constructor
  · have hred : sendMessageSM store ownerId (some cid) text newId now
        (fun _ => some reply) =
        ⟨.ok (cid, reply),
          storePut store cid
            { conv with
              messages := conv.messages ++
                [⟨Role.user, text, now⟩, ⟨Role.assistant, reply, now⟩]
              updatedAt := now },
          [.storageRead, .completionCall, .storageWrite]⟩ := by
      simp [sendMessageSM, hv, hg, hbeq, finishSend_completion_some]
    rw [hred]
    exact ⟨rfl, storeGet_storePut_self _ _ _,
      fun id hid => storeGet_storePut_ne store cid id _ hid⟩
  · simp [sendMessageSM, hv, hg, hbeq, finishSend_completion_none]

theorem sendMessageSM_existing_appends_two_witness :
    (sendMessageSM [("c1", ⟨"alice", [⟨Role.user, "a", 0⟩, ⟨Role.assistant, "b", 0⟩], 0, 0⟩)]
        "alice" (some "c1") "hi" "n" 3 (fun _ => some "yo")).outcome =
      .ok ("c1", "yo") ∧
    storeGet (sendMessageSM
        [("c1", ⟨"alice", [⟨Role.user, "a", 0⟩, ⟨Role.assistant, "b", 0⟩], 0, 0⟩)]
        "alice" (some "c1") "hi" "n" 3 (fun _ => some "yo")).store "c1" =
      some ⟨"alice",
        [⟨Role.user, "a", 0⟩, ⟨Role.assistant, "b", 0⟩,
         ⟨Role.user, "hi", 3⟩, ⟨Role.assistant, "yo", 3⟩], 0, 3⟩ ∧
    (sendMessageSM [("c1", ⟨"alice", [⟨Role.user, "a", 0⟩, ⟨Role.assistant, "b", 0⟩], 0, 0⟩)]
        "alice" (some "c1") "hi" "n" 3 (fun _ => none)).store =
      [("c1", ⟨"alice", [⟨Role.user, "a", 0⟩, ⟨Role.assistant, "b", 0⟩], 0, 0⟩)] :=
  have h := sendMessageSM_existing_appends_two
    [("c1", ⟨"alice", [⟨Role.user, "a", 0⟩, ⟨Role.assistant, "b", 0⟩], 0, 0⟩)]
    "alice" "c1" "hi" "n" 3
    ⟨"alice", [⟨Role.user, "a", 0⟩, ⟨Role.assistant, "b", 0⟩], 0, 0⟩ "yo"
    (by decide) (by decide) rfl
  ⟨h.1.1, h.1.2.1, h.2⟩

/-- C6: `listConversations` returns the owner's summaries ordered
most-recently-updated first — the result is sorted by descending updated-at,
and three conversations with update times t1 < t2 < t3 come back in the
order [t3, t2, t1]. -/
theorem listConversationsSM_most_recent_first :
    ∀ (store : Store) (ownerId : String),
      List.Sorted moreRecent (listConversationsSM store ownerId) ∧
      (∀ (id1 id2 id3 : String) (c1 c2 c3 : Conversation) (t1 t2 t3 : Nat),
        c1.owner = ownerId → c2.owner = ownerId → c3.owner = ownerId →
        c1.updatedAt = t1 → c2.updatedAt = t2 → c3.updatedAt = t3 →
        t1 < t2 → t2 < t3 →
        listConversationsSM [(id1, c1), (id2, c2), (id3, c3)] ownerId =
          [summarize id3 c3, summarize id2 c2, summarize id1 c1]) := by
  intro store ownerId
  constructor
  · exact List.sorted_insertionSort moreRecent _
  · intro id1 id2 id3 c1 c2 c3 t1 t2 t3 h1 h2 h3 ht1 ht2 ht3 h12 h23
    subst ht1 ht2 ht3
    have h13 : c1.updatedAt < c3.updatedAt := lt_trans h12 h23
    simp [listConversationsSM, List.insertionSort, List.orderedInsert,
      summarize, moreRecent, h1, h2, h3,
      Nat.not_le.mpr h12, Nat.not_le.mpr h23, Nat.not_le.mpr h13]

theorem listConversationsSM_most_recent_first_witness :
    listConversationsSM
        [("c1", ⟨"alice", [], 0, 1⟩), ("c2", ⟨"alice", [], 0, 2⟩),
         ("c3", ⟨"alice", [], 0, 3⟩)] "alice" =
      [summarize "c3" ⟨"alice", [], 0, 3⟩, summarize "c2" ⟨"alice", [], 0, 2⟩,
       summarize "c1" ⟨"alice", [], 0, 1⟩] :=
  (listConversationsSM_most_recent_first
      [("c1", ⟨"alice", [], 0, 1⟩), ("c2", ⟨"alice", [], 0, 2⟩),
       ("c3", ⟨"alice", [], 0, 3⟩)] "alice").2
    "c1" "c2" "c3" ⟨"alice", [], 0, 1⟩ ⟨"alice", [], 0, 2⟩ ⟨"alice", [], 0, 3⟩
    1 2 3 rfl rfl rfl rfl rfl rfl (by decide) (by decide)

/-- C8: the client never has two send requests outstanding — every reachable
client state has at most one request in flight, and while `loading` is set a
`sendMessage` invocation is a no-op that issues no request, with the input
field and the send button both disabled. -/
theorem chatClient_single_inflight :
    (∀ s, ClientReachable s → s.inflight ≤ 1) ∧
    (∀ (st : ClientState) (now : Nat) (outcome : SendOutcome),
      st.loading = true →
      sendMessage st now outcome = (st, false) ∧
      chatInputDisabled st = true ∧ sendButtonDisabled st = true) := by
  constructor
  · intro s hs
    have hi := reachable_inflightInv hs
    rw [inflightInv] at hi
    rw [hi]
    split <;> omega
  · intro st now outcome hl
    have hg : sendGuard st = false := by simp [sendGuard, hl]
    exact ⟨by simp [sendMessage, hg], hl, by simp [sendButtonDisabled, hl]⟩

theorem chatClient_single_inflight_witness :
    initClient.inflight ≤ 1 ∧
    sendMessage ⟨[], "hi", true, none⟩ 5 .failure =
      (⟨[], "hi", true, none⟩, false) :=
  ⟨chatClient_single_inflight.1 initClient Relation.ReflTransGen.refl,
   (chatClient_single_inflight.2 ⟨[], "hi", true, none⟩ 5 .failure rfl).1⟩
